import Mathlib

/-!
Verification development for the video-transcriber core.

The definitions below are a shallow embedding of the Python sources:
pure functions become Lean functions, Python floats become exact
rationals (`ℚ`), Python `int(x)` becomes truncation toward zero,
fallible calls become `Except`/`Option` values, and the effectful
pipeline pieces are modelled as explicit traces / state passing.
Source locations are given on every definition.
-/

/-- Python `int(x)` applied to a real value: truncation toward zero
(floor for non-negative values, ceiling for negative ones). -/
def pyInt (q : ℚ) : ℤ := if 0 ≤ q then ⌊q⌋ else ⌈q⌉

/-- Python `a // b` on floats: floor division (the result is again a float). -/
def pyFloordiv (a b : ℚ) : ℚ := (⌊a / b⌋ : ℤ)

/-- Python `a % b` on floats: `a - b * (a // b)` (result has the divisor's sign). -/
def pyMod (a b : ℚ) : ℚ := a - b * (⌊a / b⌋ : ℤ)

/-- Python `sep.join(parts)`. -/
def pyJoin (sep : String) : List String → String
  | [] => ""
  | [x] => x
  | x :: y :: xs => x ++ sep ++ pyJoin sep (y :: xs)

/-- Python `f"{n:02d}"`: decimal rendering left-padded with zeros to width 2
(the sign counts toward the width). -/
def pad2 (n : ℤ) : String :=
  if 0 ≤ n ∧ n < 10 then "0" ++ toString n else toString n

/-- Python `f"{n:03d}"`: decimal rendering left-padded with zeros to width 3
(the sign counts toward the width). -/
def pad3 (n : ℤ) : String :=
  if n < 0 then "-" ++ pad2 (-n)
  else if n < 10 then "00" ++ toString n
  else if n < 100 then "0" ++ toString n
  else toString n

/-- Python `s.strip()`: drop whitespace from both ends (list-of-chars form,
so that the kernel can evaluate it; Lean's `Char.isWhitespace` covers the
ASCII whitespace that occurs in the formatter's output). -/
def pyStrip (s : String) : String :=
  String.mk (((s.toList.dropWhile Char.isWhitespace).reverse.dropWhile
    Char.isWhitespace).reverse)

/-- Python `s.rstrip()`: drop whitespace from the right end. -/
def pyRstrip (s : String) : String :=
  String.mk ((s.toList.reverse.dropWhile Char.isWhitespace).reverse)

/-- Python `s.endswith(suffixStr)` (list-of-chars form). -/
def strEndsWith (s suffixStr : String) : Bool :=
  suffixStr.toList.isSuffixOf s.toList

/-- One timed transcription segment (src/transcriber/models.py:86-96).
The Python field `end` is a Lean keyword, hence `endT`. -/
structure Segment where
  start : ℚ
  endT : ℚ
  text : String

/-- Code `OutputFormatter.format_time_md` (src/transcriber/services/formatter.py:10-18):
`hours = int(seconds // 3600)`, `minutes = int((seconds % 3600) // 60)`,
`secs = int(seconds % 60)`, rendered `HH:MM:SS` when `hours > 0`, else `MM:SS`. -/
def format_time_md (seconds : ℚ) : String :=
  let hours : ℤ := pyInt (pyFloordiv seconds 3600)
  let minutes : ℤ := pyInt (pyFloordiv (pyMod seconds 3600) 60)
  let secs : ℤ := pyInt (pyMod seconds 60)
  if 0 < hours then pad2 hours ++ ":" ++ pad2 minutes ++ ":" ++ pad2 secs
  else pad2 minutes ++ ":" ++ pad2 secs

/-- Code `OutputFormatter.format_time_srt` (formatter.py:20-27):
as `format_time_md` but always with the hours field and with
`millis = int((seconds % 1) * 1000)` appended after a comma. -/
def format_time_srt (seconds : ℚ) : String :=
  let hours : ℤ := pyInt (pyFloordiv seconds 3600)
  let minutes : ℤ := pyInt (pyFloordiv (pyMod seconds 3600) 60)
  let secs : ℤ := pyInt (pyMod seconds 60)
  let millis : ℤ := pyInt (pyMod seconds 1 * 1000)
  pad2 hours ++ ":" ++ pad2 minutes ++ ":" ++ pad2 secs ++ "," ++ pad3 millis

/-- Sentence-ending test of `to_markdown` (formatter.py:63):
`segment.text.rstrip().endswith((".", "!", "?", "...", "。"))`. -/
def sentenceEnd (t : String) : Bool :=
  let r := pyRstrip t
  strEndsWith r "." || strEndsWith r "!" || strEndsWith r "?" ||
    strEndsWith r "..." || strEndsWith r "。"

/-- Paragraph-grouping loop of `to_markdown` (formatter.py:58-71); `cur` is
`current_paragraph`, accumulated in order; a closed paragraph contributes its
space-joined text plus a blank line, and a trailing unterminated paragraph is
flushed at the end. -/
def mdParagraphs : List Segment → List String → List String
  | [], cur => if cur.isEmpty then [] else [pyJoin " " cur, ""]
  | s :: rest, cur =>
    let cur' := cur ++ [s.text]
    if sentenceEnd s.text then pyJoin " " cur' :: "" :: mdParagraphs rest []
    else mdParagraphs rest cur'

/-- Timestamped-lines loop of `to_markdown` (formatter.py:52-56). -/
def mdTimestampLines : List Segment → List String
  | [] => []
  | s :: rest =>
    ("**[" ++ format_time_md s.start ++ "]** " ++ s.text) :: "" :: mdTimestampLines rest

/-- Code `OutputFormatter.to_markdown` (formatter.py:29-73). Python's
`if title:` is false both for `None` and for the empty string; the result is
the newline-joined lines with surrounding whitespace stripped. -/
def to_markdown (segments : List Segment) (include_timestamps : Bool)
    (title : Option String) : String :=
  let titleLines : List String :=
    match title with
    | some t => if t = "" then [] else ["# " ++ t, ""]
    | none => []
  let body : List String :=
    if include_timestamps then mdTimestampLines segments
    else mdParagraphs segments []
  pyStrip (pyJoin "\n" (titleLines ++ body))

/-- Line-emitting loop of `to_srt` (formatter.py:85-94); `i` is the 1-based
cue index from `enumerate(segments, start=1)`. -/
def srtLines : ℕ → List Segment → List String
  | _, [] => []
  | i, s :: rest =>
    toString i
      :: (format_time_srt s.start ++ " --> " ++ format_time_srt s.endT)
      :: s.text :: "" :: srtLines (i + 1) rest

/-- Code `OutputFormatter.to_srt` (formatter.py:75-96). -/
def to_srt (segments : List Segment) : String :=
  pyJoin "\n" (srtLines 1 segments)

/-- Code `OutputFormatter.to_plain_text` (formatter.py:98-108). -/
def to_plain_text (segments : List Segment) : String :=
  pyJoin " " (segments.map Segment.text)

/-- Modelled from the spec (§4.2): the Progress Aggregator band formula
`global = offset + floor(p * weight / 100)`; `Nat` division is the floor. -/
def aggregate (offset weight p : ℕ) : ℕ := offset + p * weight / 100

/-- Nested `whisper_progress` of `transcribe_file` (src/transcriber/services/
transcription.py:80-83): `10 + int(p * 0.8)`.  For p ∈ [0,100] the float
computation `int(p * 0.8)` coincides with exact `p * 80 / 100`. -/
def whisper_progress_file (p : ℕ) : ℕ := 10 + p * 80 / 100

/-- Nested `whisper_progress` of `process_transcription`
(transcription.py:252-253): `10 + int(p * 0.85)`.  For p ∈ [0,100] the float
computation `int(p * 0.85)` coincides with exact `p * 85 / 100`. -/
def whisper_progress_server (p : ℕ) : ℕ := 10 + p * 85 / 100

/-- CLI YouTube `update_progress` scaling (src/transcriber/cli.py:190-192):
`10 + int(p * 0.9)`, which for p ∈ [0,100] is exact `p * 90 / 100`. -/
def cli_total_progress (p : ℕ) : ℕ := 10 + p * 90 / 100

/-- Progress-reporting loop of `WhisperEngine.transcribe`
(src/transcriber/services/whisper.py:104-121): values passed to the callback,
given the total `duration` and the stream of segment end times; `last` is the
running `last_progress` (compared against the unclamped value, while the
emitted value is clamped by `min(progress, 100)`). -/
def whisperEmits (duration : ℚ) : List ℚ → ℤ → List ℤ
  | [], _ => []
  | e :: rest, last =>
    if 0 < duration then
      if last < pyInt (e / duration * 100) then
        min (pyInt (e / duration * 100)) 100
          :: whisperEmits duration rest (pyInt (e / duration * 100))
      else whisperEmits duration rest last
    else whisperEmits duration rest last

/-- Full callback trace of one `transcribe` run with a callback present
(whisper.py:104-124): the loop's emissions (with `last_progress` starting
at 0) followed by the unconditional final `progress_callback(100)`. -/
def whisperTrace (duration : ℚ) (ends : List ℚ) : List ℤ :=
  whisperEmits duration ends 0 ++ [100]

/-- Code `AudioExtractor.get_duration` (src/transcriber/services/audio.py:92-111).
The external probe is abstracted to its exit code and the result of Python
`float(stdout.strip())` (`none` when that parse raises `ValueError`); the code
returns `0.0` on non-zero exit and on a parse failure, the parsed value
otherwise, and raises nothing. -/
def get_duration (returncode : ℤ) (stdout_val : Option ℚ) : ℚ :=
  if returncode ≠ 0 then 0
  else
    match stdout_val with
    | some q => q
    | none => 0

/-- Record progress of a server job at failure time: `transcription.progress`
is last written by `whisper_progress` (transcription.py:253) and starts at 0
(models.py:56), so it equals the last scaled local value, or 0 when the
whisper stage never reported. -/
def whisperRecordProgress (locals : List ℕ) : ℕ :=
  match locals.getLast? with
  | some p => whisper_progress_server p
  | none => 0

/-- Progress-channel snapshots published for one server file-sourced job whose
extraction and duration probe succeed and whose whisper stage reports the
strictly increasing local values `locals` and then either finishes (`ok`) or
raises.  In order: the store initialisation (main.py:142), the
`progress_callback(5, "processing")` (transcription.py:240-241), one snapshot
per local value (transcription.py:252-255), then on success
`progress_callback(100, "completed")` (transcription.py:275-276), and on
failure the inner handler's `progress_callback(transcription.progress,
"failed")` (transcription.py:286-287) followed by the outer handler's
`progress_store[...] = {"progress": 0, "status": "failed"}` (main.py:203-204). -/
def serverChannelTrace (locals : List ℕ) (ok : Bool) : List (ℕ × String) :=
  (0, "pending") :: (5, "processing")
    :: (locals.map (fun p => (whisper_progress_server p, "processing"))
      ++ (if ok then [(100, "completed")]
          else [(whisperRecordProgress locals, "failed"), (0, "failed")]))

/-- Final `progress` field of the job record for the same run: set to 100 on
completion (transcription.py:273); left at its last written value on failure
(neither exception handler touches it: transcription.py:283-288,
main.py:206-210). -/
def serverRecordFinal (locals : List ℕ) (ok : Bool) : ℕ :=
  if ok then 100 else whisperRecordProgress locals

/-- Outcomes of the external collaborators and file writes during one
`transcribe_file` run (transcription.py:41-131) after `extract_audio` has
succeeded: the whisper result (or its exception), availability and result of
the optional LLM pass, and whether each output write raises. -/
structure FileRunOracle where
  transcribeResult : Except String (List Segment × String)
  llmAvailable : Bool
  llmResult : Except String String
  mdWriteOk : Bool
  srtWriteOk : Bool

/-- Try-body of `transcribe_file` after audio extraction
(transcription.py:78-126), threading the temp-audio-file existence flag; an
`Except.error` value stands for an exception propagating out of the body.
The LLM failure is caught inside the body (transcription.py:100-101); a write
failure or the `output_paths[0]` IndexError on a format that writes nothing
propagates.  The body never touches the temp audio file. -/
def transcribe_file_body (o : FileRunOracle) (use_llm : Bool)
    (output_format : String) (tempExists : Bool) : Except String String × Bool :=
  match o.transcribeResult with
  | .error e => (.error e, tempExists)
  | .ok (segments, _detected) =>
    let text := to_plain_text segments
    let text :=
      if use_llm && o.llmAvailable then
        match o.llmResult with
        | .ok t => t
        | .error _ => text
      else text
    if (output_format = "md" || output_format = "both") && !o.mdWriteOk then
      (.error "md write raised", tempExists)
    else if (output_format = "srt" || output_format = "both") && !o.srtWriteOk then
      (.error "srt write raised", tempExists)
    else if output_format = "md" || output_format = "srt" || output_format = "both" then
      (.ok text, tempExists)
    else
      (.error "IndexError: output_paths is empty", tempExists)

/-- Code `transcribe_file` from successful `extract_audio` on: the
`try/finally` (transcription.py:78-131).  At entry the extracted temp audio
file exists; the `finally` block (transcription.py:128-131) deletes it when it
exists, on every exit path, before the result or exception reaches the caller. -/
def transcribe_file_run (o : FileRunOracle) (use_llm : Bool)
    (output_format : String) : Except String String × Bool :=
  let res := transcribe_file_body o use_llm output_format true
  (res.1, if res.2 then false else res.2)

/-- Character class `[\w-]` of the YouTube URL patterns (ASCII view of
Python `\w`). -/
def isWordDash (c : Char) : Bool := c.isAlphanum || c = '_' || c = '-'

/-- Strips a literal from the front of a character list, when present. -/
def dropLit (lit : String) (s : List Char) : Option (List Char) :=
  if lit.toList.isPrefixOf s then some (s.drop lit.toList.length) else none

/-- Match result for one of the two YouTube patterns (youtube.py:16-19): the
two optional groups and the mandatory group-3 id capture, which participates
in every successful match. -/
structure YTMatch where
  g1 : Option String
  g2 : Option String
  g3 : String

/-- Python `match.lastindex` for a successful match of either pattern: the
index of the last participating group; group 3 is mandatory, so it is 3. -/
def YTMatch.lastindex (_m : YTMatch) : ℕ := 3

/-- Deterministic matcher for `(https?://)?(www\.)?HOST([\w-]+)` anchored at
the start (Python `re.match`), where HOST is the literal part of one of
`YOUTUBE_PATTERNS` (youtube.py:16-19).  Greedy matching of the optional
groups is deterministic for these patterns: no later literal starts with
"http" or "www.", so regex backtracking can never turn a failure into a
success. -/
def matchYT (host : String) (url : String) : Option YTMatch :=
  let s0 := url.toList
  let p1 : Option String × List Char :=
    match dropLit "https://" s0 with
    | some r => (some "https://", r)
    | none =>
      match dropLit "http://" s0 with
      | some r => (some "http://", r)
      | none => (none, s0)
  let p2 : Option String × List Char :=
    match dropLit "www." p1.2 with
    | some r => (some "www.", r)
    | none => (none, p1.2)
  match dropLit host p2.2 with
  | none => none
  | some r =>
    let idChars := r.takeWhile isWordDash
    if idChars.isEmpty then none
    else some { g1 := p1.1, g2 := p2.1, g3 := String.mk idChars }

/-- Code `YouTubeDownloader.is_youtube_url` (youtube.py:30-32): does any of
the two patterns match at the start of the url. -/
def is_youtube_url (url : String) : Bool :=
  (matchYT "youtube.com/watch?v=" url).isSome || (matchYT "youtu.be/" url).isSome

/-- Group selection of `extract_video_id` (youtube.py:39):
`match.group(3) if match.lastindex >= 3 else match.group(2)`. -/
def extract_group (m : YTMatch) : Option String :=
  if m.lastindex ≥ 3 then some m.g3 else m.g2

/-- Code `YouTubeDownloader.extract_video_id` (youtube.py:34-40): first
pattern that matches wins; `None` when neither matches. -/
def extract_video_id (url : String) : Option String :=
  match matchYT "youtube.com/watch?v=" url with
  | some m => extract_group m
  | none =>
    match matchYT "youtu.be/" url with
    | some m => extract_group m
    | none => none

/-- Modelled from the spec (§4.1): `formatTimeShort(seconds)` is `"MM:SS"`
when `seconds < 3600` and `"HH:MM:SS"` otherwise, fields zero-padded to two
digits, after truncating (not rounding) to whole seconds `t`. -/
def formatTimeShortSpec (seconds : ℚ) : String :=
  let t : ℕ := ⌊seconds⌋.toNat
  if seconds < 3600 then pad2 ((t / 60 : ℕ) : ℤ) ++ ":" ++ pad2 ((t % 60 : ℕ) : ℤ)
  else pad2 ((t / 3600 : ℕ) : ℤ) ++ ":" ++ pad2 ((t % 3600 / 60 : ℕ) : ℤ)
    ++ ":" ++ pad2 ((t % 60 : ℕ) : ℤ)

/-- Modelled from the spec (§4.1/§8): one subtitle cue — the 1-based index
line, the `start --> end` line rendered with the subtitle time format, the
segment text, each on its own line. -/
def cue (i : ℕ) (s : Segment) : String :=
  toString i ++ "\n" ++ format_time_srt s.start ++ " --> "
    ++ format_time_srt s.endT ++ "\n" ++ s.text ++ "\n"

/-- Modelled from the spec: the cues of a segment list, indexed from `i`. -/
def cueList : ℕ → List Segment → List String
  | _, [] => []
  | i, s :: rest => cue i s :: cueList (i + 1) rest

/-- Modelled from the spec (§4.1): `toSubtitles` emits, for each segment in
order, its cue, with a blank separator line between consecutive cues. -/
def toSubtitlesSpec (segments : List Segment) : String :=
  pyJoin "\n" (cueList 1 segments)

/-! Helper lemmas about the Python arithmetic primitives. -/

theorem pyInt_intCast (n : ℤ) : pyInt (n : ℚ) = n := by
  unfold pyInt
  split
  · exact Int.floor_intCast n
  · exact Int.ceil_intCast n

theorem pyInt_of_nonneg {q : ℚ} (h : 0 ≤ q) : pyInt q = ⌊q⌋ := by
  unfold pyInt
  exact if_pos h

theorem pyInt_pyFloordiv (a b : ℚ) : pyInt (pyFloordiv a b) = ⌊a / b⌋ := by
  rw [pyFloordiv, pyInt_intCast]

theorem floor_div_natCast (q : ℚ) (d : ℕ) (hd : 0 < d) :
    ⌊q / ((d : ℕ) : ℚ)⌋ = ⌊q⌋ / ((d : ℕ) : ℤ) := by
  have hd' : (0 : ℚ) < (d : ℚ) := by exact_mod_cast hd
  have hdz : (0 : ℤ) < (d : ℤ) := by exact_mod_cast hd
  apply le_antisymm
  · rw [Int.le_ediv_iff_mul_le hdz, Int.le_floor]
    push_cast
    have h1 : ((⌊q / (d : ℚ)⌋ : ℚ)) ≤ q / (d : ℚ) := Int.floor_le _
    calc ((⌊q / (d : ℚ)⌋ : ℚ)) * (d : ℚ) ≤ q / (d : ℚ) * (d : ℚ) :=
          mul_le_mul_of_nonneg_right h1 (le_of_lt hd')
      _ = q := div_mul_cancel₀ q (ne_of_gt hd')
  · rw [Int.le_floor]
    rw [le_div_iff₀ hd']
    have h1 : (⌊q⌋ / (d : ℤ)) * (d : ℤ) ≤ ⌊q⌋ := Int.ediv_mul_le ⌊q⌋ (ne_of_gt hdz)
    calc ((⌊q⌋ / (d : ℤ) : ℤ) : ℚ) * (d : ℚ)
        = (((⌊q⌋ / (d : ℤ)) * (d : ℤ) : ℤ) : ℚ) := by push_cast; ring
      _ ≤ ((⌊q⌋ : ℤ) : ℚ) := by exact_mod_cast h1
      _ ≤ q := Int.floor_le q

theorem floor_pyMod (q : ℚ) (d : ℕ) (hd : 0 < d) :
    ⌊pyMod q ((d : ℕ) : ℚ)⌋ = ⌊q⌋ % ((d : ℕ) : ℤ) := by
  unfold pyMod
  have hcast : ((d : ℕ) : ℚ) * ((⌊q / ((d : ℕ) : ℚ)⌋ : ℤ) : ℚ)
      = (((d : ℤ) * ⌊q / ((d : ℕ) : ℚ)⌋ : ℤ) : ℚ) := by push_cast; ring
  rw [hcast, Int.floor_sub_int, floor_div_natCast q d hd, Int.emod_def]

theorem pyMod_nonneg (q : ℚ) {d : ℚ} (hd : 0 < d) : 0 ≤ pyMod q d := by
  unfold pyMod
  have h1 : ((⌊q / d⌋ : ℚ)) ≤ q / d := Int.floor_le _
  have h2 : d * ((⌊q / d⌋ : ℚ)) ≤ d * (q / d) :=
    mul_le_mul_of_nonneg_left h1 (le_of_lt hd)
  have h3 : d * (q / d) = q := mul_div_cancel₀ q (ne_of_gt hd)
  linarith

theorem pyMod_lt (q : ℚ) {d : ℚ} (hd : 0 < d) : pyMod q d < d := by
  unfold pyMod
  have h1 : q / d < (⌊q / d⌋ : ℚ) + 1 := Int.lt_floor_add_one _
  have h2 : q < ((⌊q / d⌋ : ℚ) + 1) * d := by
    have := (div_lt_iff₀ hd).mp h1
    linarith
  nlinarith

/-- C5: for every non-negative seconds value, `format_time_md` returns
"MM:SS" with zero-padded two-digit fields when seconds < 3600 and "HH:MM:SS"
otherwise, truncating (not rounding) to whole seconds; in particular
`format_time_md 45 = "00:45"`, `format_time_md 125 = "02:05"` and
`format_time_md 3725 = "01:02:05"`. -/
theorem C5_format_time_short (q : ℚ) (hq : 0 ≤ q) :
    format_time_md q = formatTimeShortSpec q ∧
    format_time_md 45 = "00:45" ∧
    format_time_md 125 = "02:05" ∧
    format_time_md 3725 = "01:02:05" := by
  refine ⟨?_, ?_, ?_, ?_⟩
  · have hn : (0 : ℤ) ≤ ⌊q⌋ := Int.floor_nonneg.mpr hq
    obtain ⟨t, htZ⟩ : ∃ t : ℕ, (t : ℤ) = ⌊q⌋ := ⟨⌊q⌋.toNat, Int.toNat_of_nonneg hn⟩
    have htN : ⌊q⌋.toNat = t := by omega
    have hmod3600 : ⌊pyMod q 3600⌋ = ⌊q⌋ % 3600 := by
      rw [show (3600 : ℚ) = ((3600 : ℕ) : ℚ) by norm_num,
        floor_pyMod q 3600 (by norm_num)]
      norm_num
    have hmod60 : ⌊pyMod q 60⌋ = ⌊q⌋ % 60 := by
      rw [show (60 : ℚ) = ((60 : ℕ) : ℚ) by norm_num,
        floor_pyMod q 60 (by norm_num)]
      norm_num
    have hdiv3600 : ⌊q / 3600⌋ = ⌊q⌋ / 3600 := by
      rw [show (3600 : ℚ) = ((3600 : ℕ) : ℚ) by norm_num,
        floor_div_natCast q 3600 (by norm_num)]
      norm_num
    have hdiv60 : ⌊pyMod q 3600 / 60⌋ = ⌊pyMod q 3600⌋ / 60 := by
      rw [show (60 : ℚ) = ((60 : ℕ) : ℚ) by norm_num,
        floor_div_natCast (pyMod q 3600) 60 (by norm_num)]
      norm_num
    have hh : pyInt (pyFloordiv q 3600) = ⌊q⌋ / 3600 := by
      rw [pyInt_pyFloordiv, hdiv3600]
    have hm : pyInt (pyFloordiv (pyMod q 3600) 60) = (⌊q⌋ % 3600) / 60 := by
      rw [pyInt_pyFloordiv, hdiv60, hmod3600]
    have hs : pyInt (pyMod q 60) = ⌊q⌋ % 60 := by
      rw [pyInt_of_nonneg (pyMod_nonneg q (show (0 : ℚ) < 60 by norm_num)), hmod60]
    have hcond : (0 < ⌊q⌋ / 3600) ↔ ¬ (q < 3600) := by
      rw [not_lt]
      constructor
      · intro h
        have h2 : (3600 : ℤ) ≤ ⌊q⌋ := by omega
        have h3 := Int.le_floor.mp h2
        exact_mod_cast h3
      · intro h
        have h2 : (3600 : ℤ) ≤ ⌊q⌋ := Int.le_floor.mpr (by exact_mod_cast h)
        omega
    simp only [format_time_md, formatTimeShortSpec, hh, hm, hs, htN]
    by_cases hlt : q < 3600
    · have h1 : ¬ (0 < ⌊q⌋ / 3600) := fun hpos => (hcond.mp hpos) hlt
      rw [if_neg h1, if_pos hlt]
      have htlt : (t : ℤ) < 3600 := by
        have h2 : ⌊q⌋ < 3600 := Int.floor_lt.mpr (by exact_mod_cast hlt)
        omega
      have e1 : (⌊q⌋ % 3600) / 60 = ((t / 60 : ℕ) : ℤ) := by omega
      have e2 : ⌊q⌋ % 60 = ((t % 60 : ℕ) : ℤ) := by omega
      rw [e1, e2]
    · rw [if_pos (hcond.mpr hlt), if_neg hlt]
      have e0 : ⌊q⌋ / 3600 = ((t / 3600 : ℕ) : ℤ) := by omega
      have e1 : (⌊q⌋ % 3600) / 60 = ((t % 3600 / 60 : ℕ) : ℤ) := by omega
      have e2 : ⌊q⌋ % 60 = ((t % 60 : ℕ) : ℤ) := by omega
      rw [e0, e1, e2]
  · have e1 : pyInt (pyFloordiv (45 : ℚ) 3600) = 0 := by
      simp only [pyInt, pyFloordiv, pyMod]; norm_num
    have e2 : pyInt (pyFloordiv (pyMod (45 : ℚ) 3600) 60) = 0 := by
      simp only [pyInt, pyFloordiv, pyMod]; norm_num
    have e3 : pyInt (pyMod (45 : ℚ) 60) = 45 := by
      simp only [pyInt, pyFloordiv, pyMod]; norm_num
    simp only [format_time_md, e1, e2, e3]
    decide
  · have e1 : pyInt (pyFloordiv (125 : ℚ) 3600) = 0 := by
      simp only [pyInt, pyFloordiv, pyMod]; norm_num
    have e2 : pyInt (pyFloordiv (pyMod (125 : ℚ) 3600) 60) = 2 := by
      simp only [pyInt, pyFloordiv, pyMod]; norm_num
    have e3 : pyInt (pyMod (125 : ℚ) 60) = 5 := by
      simp only [pyInt, pyFloordiv, pyMod]; norm_num
    simp only [format_time_md, e1, e2, e3]
    decide
  · have e1 : pyInt (pyFloordiv (3725 : ℚ) 3600) = 1 := by
      simp only [pyInt, pyFloordiv, pyMod]; norm_num
    have e2 : pyInt (pyFloordiv (pyMod (3725 : ℚ) 3600) 60) = 2 := by
      simp only [pyInt, pyFloordiv, pyMod]; norm_num
    have e3 : pyInt (pyMod (3725 : ℚ) 60) = 5 := by
      simp only [pyInt, pyFloordiv, pyMod]; norm_num
    simp only [format_time_md, e1, e2, e3]
    decide

/-- Witness for C5 at the concrete input 45. -/
theorem C5_witness :
    (0 : ℚ) ≤ 45 ∧
    (format_time_md 45 = formatTimeShortSpec 45 ∧
      format_time_md 45 = "00:45" ∧
      format_time_md 125 = "02:05" ∧
      format_time_md 3725 = "01:02:05") :=
  ⟨by norm_num, C5_format_time_short 45 (by norm_num)⟩

/-- C1 counterexample: `to_markdown` on the empty segment list with a
non-empty title returns the title heading, not the empty string
(formatter.py:48-50 append the title lines unconditionally). -/
theorem C1_counterexample :
    to_markdown [] false (some "Test Video") = "# Test Video" ∧
    to_markdown [] false (some "Test Video") ≠ "" := by
  constructor
  · decide
  · decide

/-- C1 (amended): `to_markdown` on the empty segment list returns the empty
string for every `include_timestamps` when the title is `None` (or the empty
string, which Python's `if title:` also treats as absent); `to_srt` and
`to_plain_text` on the empty list return the empty string. -/
theorem C1_amended :
    (∀ include_timestamps : Bool,
      to_markdown [] include_timestamps none = "" ∧
      to_markdown [] include_timestamps (some "") = "") ∧
    to_srt [] = "" ∧ to_plain_text [] = "" := by
  refine ⟨?_, by decide, by decide⟩
  intro ts
  cases ts
  · exact ⟨by decide, by decide⟩
  · exact ⟨by decide, by decide⟩

/-- C2 counterexample: the server transcription stage writes
`10 + int(p * 0.85)` (transcription.py:253), so local p = 100 maps to 95,
not to the claimed `10 + floor(100 * 90 / 100) = 100`. -/
theorem C2_counterexample :
    whisper_progress_server 100 = 95 ∧
    aggregate 10 90 100 = 100 ∧
    whisper_progress_server 100 ≠ aggregate 10 90 100 := by
  decide

/-- C2 (amended): for every local transcription progress p in [0,100], the
global progress written to the job record equals the aggregator band with
offset 10 and weight 85, i.e. `10 + floor(p * 85 / 100)`, which lies in
[10,95]; local p = 100 maps to 95 (global 100 is only written on completion). -/
theorem C2_amended (p : ℕ) (hp : p ≤ 100) :
    whisper_progress_server p = aggregate 10 85 p ∧
    10 ≤ whisper_progress_server p ∧
    whisper_progress_server p ≤ 95 ∧
    whisper_progress_server 100 = 95 := by
  refine ⟨rfl, Nat.le_add_right 10 _, ?_, by decide⟩
  simp only [whisper_progress_server]
  omega

/-- Witness for C2 (amended) at local progress 42. -/
theorem C2_witness :
    42 ≤ 100 ∧
    (whisper_progress_server 42 = aggregate 10 85 42 ∧
      10 ≤ whisper_progress_server 42 ∧
      whisper_progress_server 42 ≤ 95 ∧
      whisper_progress_server 100 = 95) :=
  ⟨by decide, C2_amended 42 (by decide)⟩

/-- C3 (code bug): for a server file-job whose whisper stage reports local
progress 40 and then raises, the published channel snapshots are
(0 pending), (5 processing), (44 processing), (44 failed), (0 failed) — the
outer handler (main.py:204) resets the published progress to 0 after 44 was
published, so the published sequence is not monotone, while the job record
itself keeps progress 44 (no handler lowers it). -/
theorem C3_progress_reset :
    serverChannelTrace [40] false =
      [(0, "pending"), (5, "processing"), (44, "processing"),
        (44, "failed"), (0, "failed")] ∧
    ¬ ((serverChannelTrace [40] false).map Prod.fst).Chain' (· ≤ ·) ∧
    serverRecordFinal [40] false = 44 := by
  refine ⟨by decide, ?_, by decide⟩
  intro h
  have e : (serverChannelTrace [40] false).map Prod.fst = [0, 5, 44, 44, 0] := by
    decide
  rw [e] at h
  simp only [List.chain'_cons, List.chain'_singleton, and_true] at h
  omega

/-- C7: for every stage band (offset, weight) and every non-decreasing
sequence of local progress inputs in [0,100], the scaled outputs
`offset + floor(p * weight / 100)` form a non-decreasing sequence bounded
within [offset, offset + weight]; the three scaling functions used by the
pipelines are instances of this aggregator formula. -/
theorem C7_aggregator (offset weight : ℕ) (ps : List ℕ)
    (h100 : ∀ p ∈ ps, p ≤ 100) (hmono : ps.Chain' (· ≤ ·)) :
    (ps.map (aggregate offset weight)).Chain' (· ≤ ·) ∧
    (∀ g ∈ ps.map (aggregate offset weight), offset ≤ g ∧ g ≤ offset + weight) ∧
    (∀ p, whisper_progress_file p = aggregate 10 80 p) ∧
    (∀ p, whisper_progress_server p = aggregate 10 85 p) ∧
    (∀ p, cli_total_progress p = aggregate 10 90 p) := by
  refine ⟨?_, ?_, fun _ => rfl, fun _ => rfl, fun _ => rfl⟩
  · refine List.chain'_map_of_chain' _ (fun a b h => ?_) hmono
    simp only [aggregate]
    have h1 : a * weight ≤ b * weight := Nat.mul_le_mul_right _ h
    have h2 : a * weight / 100 ≤ b * weight / 100 := Nat.div_le_div_right h1
    exact Nat.add_le_add_left h2 offset
  · intro g hg
    rw [List.mem_map] at hg
    obtain ⟨p, hp, rfl⟩ := hg
    refine ⟨Nat.le_add_right _ _, ?_⟩
    simp only [aggregate]
    have h1 : p * weight ≤ 100 * weight := Nat.mul_le_mul_right _ (h100 p hp)
    have h2 : p * weight / 100 ≤ 100 * weight / 100 := Nat.div_le_div_right h1
    have h3 : 100 * weight / 100 = weight := Nat.mul_div_cancel_left weight (by norm_num)
    omega

/-- Witness for C7 at band (10, 90) and inputs [0, 50, 100]. -/
theorem C7_witness :
    ((∀ p ∈ ([0, 50, 100] : List ℕ), p ≤ 100) ∧
      ([0, 50, 100] : List ℕ).Chain' (· ≤ ·)) ∧
    ((([0, 50, 100] : List ℕ).map (aggregate 10 90)).Chain' (· ≤ ·) ∧
      (∀ g ∈ ([0, 50, 100] : List ℕ).map (aggregate 10 90), 10 ≤ g ∧ g ≤ 10 + 90) ∧
      (∀ p, whisper_progress_file p = aggregate 10 80 p) ∧
      (∀ p, whisper_progress_server p = aggregate 10 85 p) ∧
      (∀ p, cli_total_progress p = aggregate 10 90 p)) :=
  ⟨⟨by decide, by simp [List.chain'_cons]⟩,
    C7_aggregator 10 90 [0, 50, 100] (by decide) (by simp [List.chain'_cons])⟩

/-- C8 counterexample: when the probe exits 0 and its stdout parses to a
negative number (e.g. "-1"), `get_duration` returns that negative value
unclamped (audio.py:108-111), so the result is not non-negative for every
probe output. -/
theorem C8_counterexample :
    get_duration 0 (some (-1)) = -1 ∧ get_duration 0 (some (-1)) < 0 := by
  constructor
  · simp [get_duration]
  · simp [get_duration]

/-- C8 (amended): `get_duration` never raises (it is total); it returns 0.0
on probe failure (non-zero exit) and on unparseable stdout, and otherwise the
parsed value, which is non-negative whenever the probe's parsed output is
non-negative (the code does not clamp). -/
theorem C8_amended (rc : ℤ) (p : Option ℚ) (hp : ∀ x ∈ p, 0 ≤ x) :
    0 ≤ get_duration rc p ∧
    (rc ≠ 0 → get_duration rc p = 0) ∧
    get_duration rc none = 0 := by
  unfold get_duration
  refine ⟨?_, ?_, ?_⟩
  · split_ifs with h
    · exact le_refl 0
    · cases p with
      | none => exact le_refl 0
      | some q => exact hp q rfl
  · intro h
    rw [if_pos h]
  · split_ifs <;> rfl

/-- Witness for C8 (amended) at exit code 3 and parsed stdout 2. -/
theorem C8_witness :
    (∀ x ∈ (some 2 : Option ℚ), 0 ≤ x) ∧
    (0 ≤ get_duration 3 (some 2) ∧
      ((3 : ℤ) ≠ 0 → get_duration 3 (some 2) = 0) ∧
      get_duration 3 none = 0) := by
  have hp : ∀ x ∈ (some 2 : Option ℚ), 0 ≤ x := by
    intro x hx
    simp only [Option.mem_def, Option.some.injEq] at hx
    subst hx
    norm_num
  exact ⟨hp, C8_amended 3 (some 2) hp⟩

/-- Helper: the try-body of `transcribe_file` never touches the temp audio
file, on any collaborator outcome. -/
theorem transcribe_file_body_preserves (o : FileRunOracle) (use_llm : Bool)
    (fmt : String) (b : Bool) : (transcribe_file_body o use_llm fmt b).2 = b := by
  unfold transcribe_file_body
  cases h : o.transcribeResult with
  | error e => simp [h]
  | ok pr =>
    obtain ⟨segs, d⟩ := pr
    simp only [h]
    split_ifs <;> rfl

/-- C9: on every exit path of `transcribe_file` after audio extraction
succeeds — normal completion, handled failure, or an exception from any later
stage (modelled by the oracle) — the temporary extracted audio file is
deleted by the `finally` block before control returns to the caller. -/
theorem C9_temp_cleanup :
    ∀ (o : FileRunOracle) (use_llm : Bool) (output_format : String),
      (transcribe_file_run o use_llm output_format).2 = false := by
  intro o u fmt
  unfold transcribe_file_run
  dsimp only
  rw [transcribe_file_body_preserves o u fmt true]
  rfl

/-- C10: for every url, `extract_video_id` returns a non-`None` id exactly
when `is_youtube_url` is true (group 3 of each pattern is mandatory, so
`match.lastindex` is 3 and `group(3)` is returned on every match); hence the
download path that checks `is_youtube_url` first never sees a missing id. -/
theorem C10_extract_iff_is_url :
    ∀ url : String, (extract_video_id url).isSome = is_youtube_url url := by
  intro url
  unfold extract_video_id is_youtube_url
  cases h1 : matchYT "youtube.com/watch?v=" url with
  | some m => simp [extract_group, YTMatch.lastindex]
  | none =>
    cases h2 : matchYT "youtu.be/" url with
    | some m => simp [h2, extract_group, YTMatch.lastindex]
    | none => simp [h2]

/-- Helper: Python truncation is bounded by 100 on inputs at most 100. -/
theorem pyInt_le_of_le {q : ℚ} (h : q ≤ 100) : pyInt q ≤ 100 := by
  unfold pyInt
  split
  · calc ⌊q⌋ ≤ ⌊(100 : ℚ)⌋ := Int.floor_le_floor h
      _ = 100 := by norm_num
  · calc ⌈q⌉ ≤ ⌈(100 : ℚ)⌉ := Int.ceil_le_ceil h
      _ = 100 := by norm_num

/-- Helper: every value the whisper loop emits is clamped to at most 100. -/
theorem whisperEmits_le_100 (d : ℚ) (ends : List ℚ) :
    ∀ last, ∀ x ∈ whisperEmits d ends last, x ≤ 100 := by
  induction ends with
  | nil => intro last x hx; simp [whisperEmits] at hx
  | cons e rest ih =>
    intro last x hx
    rw [whisperEmits] at hx
    split_ifs at hx with hd hlt
    · rcases List.mem_cons.mp hx with h | h
      · rw [h]; exact min_le_right _ _
      · exact ih _ x h
    · exact ih _ x hx
    · exact ih _ x hx

/-- Helper: the whisper loop's emissions are non-decreasing and bounded
below by `min last 100`. -/
theorem whisperEmits_chain_le (d : ℚ) (ends : List ℚ) :
    ∀ last, (whisperEmits d ends last).Chain' (· ≤ ·) ∧
      ∀ x ∈ whisperEmits d ends last, min last 100 ≤ x := by
  induction ends with
  | nil =>
    intro last
    constructor
    · simp [whisperEmits]
    · simp [whisperEmits]
  | cons e rest ih =>
    intro last
    rw [whisperEmits]
    split_ifs with hd hlt
    · obtain ⟨ihc, ihb⟩ := ih (pyInt (e / d * 100))
      constructor
      · rw [List.chain'_cons']
        refine ⟨?_, ihc⟩
        intro y hy
        exact ihb y (List.mem_of_mem_head? hy)
      · intro x hx
        rcases List.mem_cons.mp hx with h | h
        · rw [h]
          exact min_le_min (le_of_lt hlt) (le_refl _)
        · exact le_trans (min_le_min (le_of_lt hlt) (le_refl _)) (ihb x h)
    · exact ih last
    · exact ih last

/-- Helper: when the total duration is positive and every segment end is at
most the duration, the whisper loop's emissions are strictly increasing. -/
theorem whisperEmits_chain_lt (d : ℚ) (hd : 0 < d) :
    ∀ ends : List ℚ, (∀ e ∈ ends, e ≤ d) →
      ∀ last, (whisperEmits d ends last).Chain' (· < ·) ∧
        ∀ x ∈ whisperEmits d ends last, min last 100 < x := by
  intro ends
  induction ends with
  | nil =>
    intro _ last
    constructor
    · simp [whisperEmits]
    · simp [whisperEmits]
  | cons e rest ih =>
    intro hends last
    have he : e ≤ d := hends e (List.mem_cons_self e rest)
    have hrest : ∀ x ∈ rest, x ≤ d := fun x hx => hends x (List.mem_cons_of_mem e hx)
    have hp100 : pyInt (e / d * 100) ≤ 100 := by
      apply pyInt_le_of_le
      have h1 : e / d ≤ 1 := (div_le_one hd).mpr he
      calc e / d * 100 ≤ 1 * 100 := by nlinarith
        _ = 100 := by norm_num
    have hmin : min (pyInt (e / d * 100)) 100 = pyInt (e / d * 100) :=
      min_eq_left hp100
    rw [whisperEmits]
    split_ifs with hlt
    · obtain ⟨ihc, ihb⟩ := ih hrest (pyInt (e / d * 100))
      constructor
      · rw [List.chain'_cons']
        refine ⟨?_, ihc⟩
        intro y hy
        have h1 := ihb y (List.mem_of_mem_head? hy)
        rw [hmin]
        calc pyInt (e / d * 100)
            = min (pyInt (e / d * 100)) 100 := hmin.symm
          _ < y := h1
      · intro x hx
        rcases List.mem_cons.mp hx with h | h
        · rw [h, hmin]
          calc min last 100 ≤ last := min_le_left _ _
            _ < pyInt (e / d * 100) := hlt
        · have h1 := ihb x h
          have h2 : min last 100 ≤ min (pyInt (e / d * 100)) 100 :=
            min_le_min (le_of_lt hlt) (le_refl _)
          exact lt_of_le_of_lt h2 h1
    · exact ih hrest last

/-- C4 counterexample: with duration 1 and a single segment ending at 1, the
loop emits 100 and the unconditional final `progress_callback(100)`
(whisper.py:122-124) emits 100 again, so the callback sequence [100, 100] is
not strictly increasing. -/
theorem C4_counterexample :
    whisperTrace 1 [1] = [100, 100] ∧
    ¬ (whisperTrace 1 [1]).Chain' (· < ·) := by
  have e : whisperTrace 1 [1] = [100, 100] := by
    norm_num [whisperTrace, whisperEmits, pyInt]
  refine ⟨e, ?_⟩
  rw [e]
  intro h
  simp only [List.chain'_cons, List.chain'_singleton, and_true] at h
  omega

/-- C4 (amended): for a run with positive total duration, the whole callback
sequence (loop emissions followed by the unconditional final call) is
monotonically non-decreasing and ends with 100; the loop's emissions alone
are strictly increasing whenever every segment end is at most the total
duration — the final call may duplicate an already-emitted 100, which is the
only failure of strictness. -/
theorem C4_amended (duration : ℚ) (ends : List ℚ) (hd : 0 < duration) :
    (whisperTrace duration ends).Chain' (· ≤ ·) ∧
    (whisperTrace duration ends).getLast? = some 100 ∧
    ((∀ e ∈ ends, e ≤ duration) →
      (whisperEmits duration ends 0).Chain' (· < ·)) := by
  refine ⟨?_, ?_, ?_⟩
  · unfold whisperTrace
    obtain ⟨hc, _⟩ := whisperEmits_chain_le duration ends 0
    refine List.chain'_append.mpr ⟨hc, List.chain'_singleton 100, ?_⟩
    intro x hx y hy
    have hx' : x ∈ whisperEmits duration ends 0 := List.mem_of_mem_getLast? hx
    have hy' : y = 100 := by
      simp only [List.head?_cons, Option.mem_def, Option.some.injEq] at hy
      exact hy.symm
    rw [hy']
    exact whisperEmits_le_100 duration ends 0 x hx'
  · unfold whisperTrace
    exact List.getLast?_concat _
  · intro hends
    exact (whisperEmits_chain_lt duration hd ends hends 0).1

/-- Witness for C4 (amended) at duration 2 and segment ends [1]. -/
theorem C4_witness :
    (0 : ℚ) < 2 ∧
    ((whisperTrace 2 [1]).Chain' (· ≤ ·) ∧
      (whisperTrace 2 [1]).getLast? = some 100 ∧
      ((∀ e ∈ ([1] : List ℚ), e ≤ 2) →
        (whisperEmits 2 [1] 0).Chain' (· < ·))) :=
  ⟨by norm_num, C4_amended 2 [1] (by norm_num)⟩

/-- Helper: joining a cons with a non-empty tail peels one separator. -/
theorem pyJoin_cons_of_ne_nil (sep x : String) {L : List String} (h : L ≠ []) :
    pyJoin sep (x :: L) = x ++ sep ++ pyJoin sep L := by
  cases L with
  | nil => exact absurd rfl h
  | cons y ys => rfl

/-- Helper: the line list of a non-empty segment list is non-empty. -/
theorem srtLines_ne_nil (i : ℕ) (s : Segment) (rest : List Segment) :
    srtLines i (s :: rest) ≠ [] := by
  rw [srtLines]
  exact List.cons_ne_nil _ _

/-- Helper: the cue list of a non-empty segment list is non-empty. -/
theorem cueList_ne_nil (i : ℕ) (s : Segment) (rest : List Segment) :
    cueList i (s :: rest) ≠ [] := by
  rw [cueList]
  exact List.cons_ne_nil _ _

/-- Helper: the flat line list emitted by `to_srt`, joined by newlines,
equals the per-cue rendering joined by blank separator lines. -/
theorem pyJoin_srtLines_eq_cueList (segs : List Segment) :
    ∀ i : ℕ, pyJoin "\n" (srtLines i segs) = pyJoin "\n" (cueList i segs) := by
  induction segs with
  | nil => intro i; rfl
  | cons s rest ih =>
    intro i
    cases rest with
    | nil =>
      simp only [srtLines, cueList, pyJoin, cue]
      simp [String.append_assoc, String.append_empty]
    | cons s2 rest2 =>
      rw [srtLines, cueList]
      rw [pyJoin_cons_of_ne_nil _ _ (by
        intro hc
        exact (List.cons_ne_nil _ _) hc)]
      · rw [pyJoin_cons_of_ne_nil _ _ (cueList_ne_nil (i + 1) s2 rest2)]
        rw [show pyJoin "\n" ((format_time_srt s.start ++ " --> " ++ format_time_srt s.endT) :: s.text :: "" :: srtLines (i + 1) (s2 :: rest2)) = (format_time_srt s.start ++ " --> " ++ format_time_srt s.endT) ++ "\n" ++ pyJoin "\n" (s.text :: "" :: srtLines (i + 1) (s2 :: rest2)) from rfl]
        rw [show pyJoin "\n" (s.text :: "" :: srtLines (i + 1) (s2 :: rest2)) = s.text ++ "\n" ++ pyJoin "\n" ("" :: srtLines (i + 1) (s2 :: rest2)) from rfl]
        rw [pyJoin_cons_of_ne_nil _ _ (srtLines_ne_nil (i + 1) s2 rest2)]
        rw [ih (i + 1)]
        simp only [cue, String.append_assoc, String.empty_append]

set_option maxRecDepth 4000 in
/-- C6: `to_srt` emits, for each segment in order, a cue of 1-based index,
a `start --> end` line in the zero-padded `HH:MM:SS,mmm` format (milliseconds
truncated), the segment text and a blank separator line; in particular
`format_time_srt 3725.5 = "01:02:05,500"` and the first cue of the sample
segments is `"1\n00:00:00,000 --> 00:00:02,500\nHello, this is a test.\n"`,
as shown by the full rendering of the three-segment sample. -/
theorem C6_to_subtitles :
    (∀ segments : List Segment, to_srt segments = toSubtitlesSpec segments) ∧
    format_time_srt (3725.5 : ℚ) = "01:02:05,500" ∧
    cue 1 ⟨0, 2.5, "Hello, this is a test."⟩
      = "1\n00:00:00,000 --> 00:00:02,500\nHello, this is a test.\n" ∧
    to_srt [⟨0, 2.5, "Hello, this is a test."⟩,
        ⟨2.5, 5, "This is the second segment."⟩,
        ⟨5, 8, "And this is the third one!"⟩]
      = "1\n00:00:00,000 --> 00:00:02,500\nHello, this is a test.\n\n2\n00:00:02,500 --> 00:00:05,000\nThis is the second segment.\n\n3\n00:00:05,000 --> 00:00:08,000\nAnd this is the third one!\n" := by
  have h0 : format_time_srt 0 = "00:00:00,000" := by
    have e1 : pyInt (pyFloordiv (0 : ℚ) 3600) = 0 := by
      simp only [pyInt, pyFloordiv, pyMod]; norm_num
    have e2 : pyInt (pyFloordiv (pyMod (0 : ℚ) 3600) 60) = 0 := by
      simp only [pyInt, pyFloordiv, pyMod]; norm_num
    have e3 : pyInt (pyMod (0 : ℚ) 60) = 0 := by
      simp only [pyInt, pyFloordiv, pyMod]; norm_num
    have e4 : pyInt (pyMod (0 : ℚ) 1 * 1000) = 0 := by
      simp only [pyInt, pyFloordiv, pyMod]; norm_num
    simp only [format_time_srt, e1, e2, e3, e4]
    decide
  have h25 : format_time_srt (2.5 : ℚ) = "00:00:02,500" := by
    have e1 : pyInt (pyFloordiv (2.5 : ℚ) 3600) = 0 := by
      simp only [pyInt, pyFloordiv, pyMod]; norm_num
    have e2 : pyInt (pyFloordiv (pyMod (2.5 : ℚ) 3600) 60) = 0 := by
      simp only [pyInt, pyFloordiv, pyMod]; norm_num
    have e3 : pyInt (pyMod (2.5 : ℚ) 60) = 2 := by
      simp only [pyInt, pyFloordiv, pyMod]; norm_num
    have e4 : pyInt (pyMod (2.5 : ℚ) 1 * 1000) = 500 := by
      simp only [pyInt, pyFloordiv, pyMod]; norm_num
    simp only [format_time_srt, e1, e2, e3, e4]
    decide
  have h5 : format_time_srt (5 : ℚ) = "00:00:05,000" := by
    have e1 : pyInt (pyFloordiv (5 : ℚ) 3600) = 0 := by
      simp only [pyInt, pyFloordiv, pyMod]; norm_num
    have e2 : pyInt (pyFloordiv (pyMod (5 : ℚ) 3600) 60) = 0 := by
      simp only [pyInt, pyFloordiv, pyMod]; norm_num
    have e3 : pyInt (pyMod (5 : ℚ) 60) = 5 := by
      simp only [pyInt, pyFloordiv, pyMod]; norm_num
    have e4 : pyInt (pyMod (5 : ℚ) 1 * 1000) = 0 := by
      simp only [pyInt, pyFloordiv, pyMod]; norm_num
    simp only [format_time_srt, e1, e2, e3, e4]
    decide
  have h8 : format_time_srt (8 : ℚ) = "00:00:08,000" := by
    have e1 : pyInt (pyFloordiv (8 : ℚ) 3600) = 0 := by
      simp only [pyInt, pyFloordiv, pyMod]; norm_num
    have e2 : pyInt (pyFloordiv (pyMod (8 : ℚ) 3600) 60) = 0 := by
      simp only [pyInt, pyFloordiv, pyMod]; norm_num
    have e3 : pyInt (pyMod (8 : ℚ) 60) = 8 := by
      simp only [pyInt, pyFloordiv, pyMod]; norm_num
    have e4 : pyInt (pyMod (8 : ℚ) 1 * 1000) = 0 := by
      simp only [pyInt, pyFloordiv, pyMod]; norm_num
    simp only [format_time_srt, e1, e2, e3, e4]
    decide
  have h37 : format_time_srt (3725.5 : ℚ) = "01:02:05,500" := by
    have e1 : pyInt (pyFloordiv (3725.5 : ℚ) 3600) = 1 := by
      simp only [pyInt, pyFloordiv, pyMod]; norm_num
    have e2 : pyInt (pyFloordiv (pyMod (3725.5 : ℚ) 3600) 60) = 2 := by
      simp only [pyInt, pyFloordiv, pyMod]; norm_num
    have e3 : pyInt (pyMod (3725.5 : ℚ) 60) = 5 := by
      simp only [pyInt, pyFloordiv, pyMod]; norm_num
    have e4 : pyInt (pyMod (3725.5 : ℚ) 1 * 1000) = 500 := by
      simp only [pyInt, pyFloordiv, pyMod]; norm_num
    simp only [format_time_srt, e1, e2, e3, e4]
    decide
  refine ⟨?_, h37, ?_, ?_⟩
  · intro segments
    exact pyJoin_srtLines_eq_cueList segments 1
  · dsimp only [cue]
    rw [h0, h25]
    decide
  · dsimp only [to_srt, srtLines]
    rw [h0, h25, h5, h8]
    decide
